import Mathlib

/-!
Verification of the googkit hierarchical command resolution and execution
engine, shallowly embedded from the Python sources (`lib/command_tree.py`,
`googkit/__init__.py`, `googkit/commands/*.py`).
-/

set_option autoImplicit false

namespace Googkit

/-- A node of the command tree: Python stores either a `dict` mapping token
strings to nested nodes (a branch) or a `list` of command classes (a leaf).
Command classes are modelled by their names (strings).  A `dict` is modelled
as an association list in insertion order. -/
inductive Node where
  | leaf (cmds : List String)
  | branch (entries : List (String × Node))

/-- Entries of a branch node, i.e. the contents of a Python `dict`
mapping token strings to nodes. -/
abbrev Entries := List (String × Node)

/-- Python dict `d.get(key)` on a dict modelled as an association list:
the first binding of the key, or `none`. -/
def lookup : Entries → String → Option Node
  | [], _ => none
  | (k, v) :: rest, a => if k = a then some v else lookup rest a

/-- Python dict assignment `d[key] = v`: replaces the value of an existing key in
place (keeping its position) or appends a new binding at the end. -/
def insertEntry : Entries → String → Node → Entries
  | [], k, v => [(k, v)]
  | (k', v') :: rest, k, v =>
      if k' = k then (k, v) :: rest else (k', v') :: insertEntry rest k v

/-- The table `CommandTree.DEFAULT_TREE` from `lib/command_tree.py`, with command
classes named by strings, in the dict-literal insertion order. -/
def DEFAULT_TREE : Entries :=
  [("_commands", Node.leaf ["CommandsCommand"]),
   ("build", Node.leaf ["BuildCommand"]),
   ("config", Node.branch [("apply", Node.leaf ["ApplyConfigCommand", "UpdateDepsCommand"])]),
   ("deps", Node.branch [("update", Node.leaf ["UpdateDepsCommand"])]),
   ("init", Node.leaf ["InitCommand"]),
   ("ready", Node.leaf ["ApplyConfigCommand", "UpdateDepsCommand"]),
   ("setup", Node.leaf ["SetupCommand", "UpdateDepsCommand"])]

/-- The loop of `CommandTree.command_classes`: `value` is the current dict,
`last` is `last_value`.  Each iteration first returns `None` if a leaf was
already found (`# a garbage found next to a right command`), then fetches
`value.get(arg)`: a list sets `last_value` and continues, a dict descends and
continues, anything else returns `None`.  The statements after the
unconditional `return None` in the Python body are unreachable (see
`command_classes_steps` below) and hence contribute nothing here.
After the loop the function returns `last_value`. -/
def ccGo : Entries → Option (List String) → List String → Option (List String)
  | _, last, [] => last
  | m, last, a :: rest =>
      if last.isSome then none
      else
        match lookup m a with
        | some (Node.leaf l) => ccGo m (some l) rest
        | some (Node.branch m2) => ccGo m2 last rest
        | none => none

/-- Embeds `CommandTree.command_classes(args)` from `lib/command_tree.py`:
`none` models the Python `None` (NOT_FOUND). -/
def command_classes (tree : Entries) (args : List String) : Option (List String) :=
  ccGo tree none args

/-- Holds when `P` is a registered path with leaf `L`: following the tokens of `P`
through branch nodes reaches exactly the leaf `L` at the last token. -/
def isPathTo : Entries → List String → List String → Bool
  | _, [], _ => false
  | m, [a], L =>
      match lookup m a with
      | some (Node.leaf l) => l == L
      | _ => false
  | m, a :: b :: p, L =>
      match lookup m a with
      | some (Node.branch m2) => isPathTo m2 (b :: p) L
      | _ => false

/-- The walk over the tokens never reaches a leaf: either the tokens are
exhausted while still in a branch (including the empty sequence) or an
unknown token is met. -/
def noLeafWalk : Entries → List String → Bool
  | _, [] => true
  | m, a :: p =>
      match lookup m a with
      | none => true
      | some (Node.branch m2) => noLeafWalk m2 p
      | some (Node.leaf _) => false

/-- Python string `<` (lexicographic comparison of code points) on the
underlying character lists. -/
def pyCharListLt : List Char → List Char → Bool
  | [], [] => false
  | [], _ :: _ => true
  | _ :: _, [] => false
  | a :: as, b :: bs =>
      if a.val < b.val then true
      else if b.val < a.val then false
      else pyCharListLt as bs

/-- Python string `<` on strings. -/
def pyStrLt (a b : String) : Bool := pyCharListLt a.data b.data

/-- Insert a string into an already ascending list, before the first
element it is not greater than. -/
def insertSorted (a : String) : List String → List String
  | [] => [a]
  | b :: l => if pyStrLt b a then b :: insertSorted a l else a :: b :: l

/-- Python `sorted` on a list of strings (ascending by code points),
realised as insertion sort. -/
def pySorted (l : List String) : List String := l.foldr insertSorted []

/-- Embeds `CommandTree.is_internal_command(name)`, i.e. `name[0] == '_'`:
`none` models the `IndexError` Python raises on an empty name. -/
def is_internal_command (name : String) : Option Bool :=
  match name.data with
  | [] => none
  | c :: _ => some (c = '_')

/-- The list comprehension `[cmd for cmd in commands if not
CommandTree.is_internal_command(cmd)]`; `none` models the `IndexError`
raised when a name is empty. -/
def filterNonInternal : List String → Option (List String)
  | [] => some []
  | k :: rest =>
      match is_internal_command k with
      | none => none
      | some b => (filterNonInternal rest).map (fun l => if b then l else k :: l)

/-- The walk of `CommandTree.available_commands`: `command_dict` may be
rebound to any value found in the dict (including a list); calling `.get`
on a list raises `AttributeError`, modelled as `none`.  After the loop,
a non-dict value yields `[]`, and a dict yields its sorted non-internal
keys. -/
def acGo : Node → List String → Option (List String)
  | Node.branch m, [] => (filterNonInternal (m.map Prod.fst)).map pySorted
  | Node.leaf _, [] => some []
  | Node.branch m, a :: p =>
      match lookup m a with
      | none => some []
      | some n2 => acGo n2 p
  | Node.leaf _, _ :: _ => none

/-- Embeds `CommandTree.available_commands(args)` from `lib/command_tree.py`.
`some names` is the returned list; `none` models an escaping Python
exception (`AttributeError` from `.get` on a list, or `IndexError` from
`is_internal_command` on an empty key). -/
def available_commands (tree : Entries) (args : List String) : Option (List String) :=
  acGo (Node.branch tree) args

/-- Embeds `CommandTree.right_commands(args)` from `lib/command_tree.py`: consume
tokens while they exist as keys, appending each found token; stop after
appending a token whose value is not a dict. -/
def right_commands : Entries → List String → List String
  | _, [] => []
  | m, a :: p =>
      match lookup m a with
      | none => []
      | some (Node.leaf _) => [a]
      | some (Node.branch m2) => a :: right_commands m2 p

/-- Embeds `CommandTree.register(names, commands)` from `lib/command_tree.py`:
for every name but the last, bind the name to a fresh empty dict
(overwriting whatever was there) and descend into it; bind the last name
to the leaf.  `none` models the `IndexError` raised by `names[-1]` when
`names` is empty. -/
def register : Entries → List String → List String → Option Entries
  | _, [], _ => none
  | m, [a], cmds => some (insertEntry m a (Node.leaf cmds))
  | m, a :: b :: p, cmds =>
      (register [] (b :: p) cmds).map (fun sub => insertEntry m a (Node.branch sub))

/-- The walk of `available_commands` meets an unknown token while still in
a branch. -/
def walkUnknown : Entries → List String → Bool
  | _, [] => false
  | m, a :: p =>
      match lookup m a with
      | none => true
      | some (Node.branch m2) => walkUnknown m2 p
      | some (Node.leaf _) => false

/-- The walk of `available_commands` lands on a leaf exactly as the tokens
run out. -/
def endsOnLeaf : Entries → List String → Bool
  | _, [] => false
  | m, a :: p =>
      match lookup m a with
      | some (Node.leaf _) => p.isEmpty
      | some (Node.branch m2) => endsOnLeaf m2 p
      | none => false

/-- The walk of `available_commands` lands on a leaf while tokens remain. -/
def leafMidWalk : Entries → List String → Bool
  | _, [] => false
  | m, a :: p =>
      match lookup m a with
      | some (Node.leaf _) => !p.isEmpty
      | some (Node.branch m2) => leafMidWalk m2 p
      | none => false

/-- The branch node reached by walking the tokens through branch nodes
only: `some` of its entries when every token steps into a branch, `none`
when an unknown token or a leaf is met on the way. -/
def reachedBranch : Entries → List String → Option Entries
  | m, [] => some m
  | m, a :: p =>
      match lookup m a with
      | some (Node.branch m2) => reachedBranch m2 p
      | _ => none

/-- Well-formedness of a tree node: every key, at every depth, is a
non-empty string (so `is_internal_command` never raises).  This holds for
`DEFAULT_TREE` and is preserved by any `register` call with non-empty
names. -/
def nodeWF : Node → Bool
  | Node.leaf _ => true
  | Node.branch [] => true
  | Node.branch ((k, v) :: rest) =>
      !k.data.isEmpty && nodeWF v && nodeWF (Node.branch rest)

/-! ### Lemmas about `command_classes` -/

theorem lookup_insertEntry (m : Entries) (k : String) (v : Node) :
    lookup (insertEntry m k v) k = some v := by
  induction m with
  | nil => simp [insertEntry, lookup]
  | cons kv rest ih =>
      obtain ⟨k', v'⟩ := kv
      by_cases h : k' = k
      · simp [insertEntry, h, lookup]
      · simp [insertEntry, h, lookup, ih]

theorem ccGo_path : ∀ (P : List String) (m : Entries) (L : List String),
    isPathTo m P L = true → ccGo m none P = some L
  | [], _, _, h => by simp [isPathTo] at h
  | [a], m, L, h => by
      simp only [isPathTo] at h
      cases hl : lookup m a with
      | none => rw [hl] at h; simp at h
      | some n =>
        cases n with
        | leaf l =>
            rw [hl] at h
            simp only [beq_iff_eq] at h
            subst h
            simp [ccGo, hl]
        | branch m2 => rw [hl] at h; simp at h
  | a :: b :: p, m, L, h => by
      simp only [isPathTo] at h
      cases hl : lookup m a with
      | none => rw [hl] at h; simp at h
      | some n =>
        cases n with
        | leaf l => rw [hl] at h; simp at h
        | branch m2 =>
            rw [hl] at h
            have ih := ccGo_path (b :: p) m2 L h
            simpa [ccGo, hl] using ih

theorem ccGo_path_extra : ∀ (P : List String) (m : Entries) (L : List String) (t : String),
    isPathTo m P L = true → ccGo m none (P ++ [t]) = none
  | [], _, _, _, h => by simp [isPathTo] at h
  | [a], m, L, t, h => by
      simp only [isPathTo] at h
      cases hl : lookup m a with
      | none => rw [hl] at h; simp at h
      | some n =>
        cases n with
        | leaf l => simp [ccGo, hl]
        | branch m2 => rw [hl] at h; simp at h
  | a :: b :: p, m, L, t, h => by
      simp only [isPathTo] at h
      cases hl : lookup m a with
      | none => rw [hl] at h; simp at h
      | some n =>
        cases n with
        | leaf l => rw [hl] at h; simp at h
        | branch m2 =>
            rw [hl] at h
            have ih := ccGo_path_extra (b :: p) m2 L t h
            simpa [ccGo, hl] using ih

theorem ccGo_noleaf : ∀ (Q : List String) (m : Entries),
    noLeafWalk m Q = true → ccGo m none Q = none
  | [], _, _ => rfl
  | a :: p, m, h => by
      simp only [noLeafWalk] at h
      cases hl : lookup m a with
      | none => simp [ccGo, hl]
      | some n =>
        cases n with
        | leaf l => rw [hl] at h; simp at h
        | branch m2 =>
            rw [hl] at h
            have ih := ccGo_noleaf p m2 h
            simp [ccGo, hl, ih]

/-- C1: for every path `P` registered in the tree with leaf list `L`,
`command_classes P` returns exactly `L`; `command_classes (P ++ [t])`
returns NOT_FOUND (`none`) for every extra token `t`; and for every token
sequence `Q` whose walk never reaches a leaf (tokens exhausted in a branch,
including the empty sequence, or an unknown token met), `command_classes Q`
returns NOT_FOUND. -/
theorem command_classes_resolution (m : Entries) (P L : List String) (t : String)
    (Q : List String) (h1 : isPathTo m P L = true) (h2 : noLeafWalk m Q = true) :
    command_classes m P = some L ∧
    command_classes m (P ++ [t]) = none ∧
    command_classes m Q = none :=
  ⟨ccGo_path P m L h1, ccGo_path_extra P m L t h1, ccGo_noleaf Q m h2⟩

/-- Witness for C1 on the default tree: `["config", "apply"]` is registered
with its two chained command classes, `["deps"]` exhausts in a branch. -/
theorem command_classes_resolution_witness :
    (isPathTo DEFAULT_TREE ["config", "apply"] ["ApplyConfigCommand", "UpdateDepsCommand"] = true ∧
     noLeafWalk DEFAULT_TREE ["deps"] = true) ∧
    (command_classes DEFAULT_TREE ["config", "apply"] = some ["ApplyConfigCommand", "UpdateDepsCommand"] ∧
     command_classes DEFAULT_TREE (["config", "apply"] ++ ["x"]) = none ∧
     command_classes DEFAULT_TREE ["deps"] = none) :=
  ⟨⟨by decide, by decide⟩,
   command_classes_resolution DEFAULT_TREE ["config", "apply"]
     ["ApplyConfigCommand", "UpdateDepsCommand"] "x" ["deps"] (by decide) (by decide)⟩

/-! ### Lemmas about `available_commands` -/

theorem acGo_unknown : ∀ (args : List String) (m : Entries),
    walkUnknown m args = true → acGo (Node.branch m) args = some []
  | [], _, h => by simp [walkUnknown] at h
  | a :: p, m, h => by
      simp only [walkUnknown] at h
      cases hl : lookup m a with
      | none => simp [acGo, hl]
      | some n =>
        cases n with
        | leaf l => rw [hl] at h; simp at h
        | branch m2 =>
            rw [hl] at h
            have ih := acGo_unknown p m2 h
            simp [acGo, hl, ih]

theorem acGo_endsOnLeaf : ∀ (args : List String) (m : Entries),
    endsOnLeaf m args = true → acGo (Node.branch m) args = some []
  | [], _, h => by simp [endsOnLeaf] at h
  | a :: p, m, h => by
      simp only [endsOnLeaf] at h
      cases hl : lookup m a with
      | none => rw [hl] at h; simp at h
      | some n =>
        cases n with
        | leaf l =>
            rw [hl] at h
            simp only [List.isEmpty_iff] at h
            subst h
            simp [acGo, hl]
        | branch m2 =>
            rw [hl] at h
            have ih := acGo_endsOnLeaf p m2 h
            simp [acGo, hl, ih]

theorem acGo_leafMid : ∀ (args : List String) (m : Entries),
    leafMidWalk m args = true → acGo (Node.branch m) args = none
  | [], _, h => by simp [leafMidWalk] at h
  | a :: p, m, h => by
      simp only [leafMidWalk] at h
      cases hl : lookup m a with
      | none => rw [hl] at h; simp at h
      | some n =>
        cases n with
        | leaf l =>
            rw [hl] at h
            cases p with
            | nil => simp at h
            | cons q qs => simp [acGo, hl]
        | branch m2 =>
            rw [hl] at h
            have ih := acGo_leafMid p m2 h
            simp [acGo, hl, ih]

theorem acGo_reachedBranch : ∀ (args : List String) (m m' : Entries),
    reachedBranch m args = some m' →
    acGo (Node.branch m) args = (filterNonInternal (m'.map Prod.fst)).map pySorted
  | [], m, m', h => by
      simp only [reachedBranch, Option.some_inj] at h
      subst h
      rfl
  | a :: p, m, m', h => by
      simp only [reachedBranch] at h
      cases hl : lookup m a with
      | none => rw [hl] at h; simp at h
      | some n =>
        cases n with
        | leaf l => rw [hl] at h; simp at h
        | branch m2 =>
            rw [hl] at h
            have ih := acGo_reachedBranch p m2 m' h
            simp [acGo, hl, ih]

/-- C5 counterexample: the claim states that a walk that lands on a leaf
returns the empty sequence, but `available_commands` on
`["build", "x"]` (where `"build"` is a leaf and a token remains) calls
`.get` on a Python list, raising `AttributeError` (modelled `none`) instead
of returning `[]`. -/
theorem available_commands_leaf_mid_counterexample :
    available_commands DEFAULT_TREE ["build", "x"] = none ∧
    ¬ available_commands DEFAULT_TREE ["build", "x"] = some [] := by
  decide

/-- C5 amended: `available_commands` walks the tokens; meeting an unknown
token returns the empty list, exhausting the tokens exactly on a leaf
returns the empty list, but landing on a leaf while tokens remain raises
`AttributeError` (modelled `none`) rather than returning empty; otherwise
— on every tree and token sequence whose walk steps through branches to a
branch node — it returns the sorted, internal-filtered key set of the
branch reached; in particular the empty token sequence on the default
tree returns all sorted non-internal top-level names (`_commands` is
filtered out). -/
theorem available_commands_cases (m : Entries) (args : List String) :
    (walkUnknown m args = true → available_commands m args = some []) ∧
    (endsOnLeaf m args = true → available_commands m args = some []) ∧
    (leafMidWalk m args = true → available_commands m args = none) ∧
    (∀ m', reachedBranch m args = some m' →
      available_commands m args = (filterNonInternal (m'.map Prod.fst)).map pySorted) ∧
    available_commands DEFAULT_TREE [] =
      some ["build", "config", "deps", "init", "ready", "setup"] :=
  ⟨acGo_unknown args m, acGo_endsOnLeaf args m, acGo_leafMid args m,
   fun m' h => acGo_reachedBranch args m m' h, by decide⟩

/-- Witness for C5 (amended) on the default tree: an unknown token returns
empty, a leaf met mid-walk yields the `AttributeError` outcome, and a walk
through branches to a branch node yields its sorted non-internal keys. -/
theorem available_commands_cases_witness :
    (walkUnknown DEFAULT_TREE ["bogus"] = true ∧
     available_commands DEFAULT_TREE ["bogus"] = some []) ∧
    (leafMidWalk DEFAULT_TREE ["build", "x"] = true ∧
     available_commands DEFAULT_TREE ["build", "x"] = none) ∧
    (reachedBranch DEFAULT_TREE ["config"] =
       some [("apply", Node.leaf ["ApplyConfigCommand", "UpdateDepsCommand"])] ∧
     available_commands DEFAULT_TREE ["config"] =
       (filterNonInternal
         ([("apply", Node.leaf ["ApplyConfigCommand", "UpdateDepsCommand"])].map
           Prod.fst)).map pySorted) :=
  ⟨⟨by decide, (available_commands_cases DEFAULT_TREE ["bogus"]).1 (by decide)⟩,
   ⟨by decide, (available_commands_cases DEFAULT_TREE ["build", "x"]).2.2.1 (by decide)⟩,
   ⟨rfl,
    (available_commands_cases DEFAULT_TREE ["config"]).2.2.2.1
      [("apply", Node.leaf ["ApplyConfigCommand", "UpdateDepsCommand"])] rfl⟩⟩

/-! ### Lemmas about `register` -/

theorem register_ok : ∀ (P : List String) (m : Entries) (L : List String), P ≠ [] →
    ∃ m', register m P L = some m' ∧ command_classes m' P = some L
  | [], _, _, h => absurd rfl h
  | [a], m, L, _ => by
      refine ⟨insertEntry m a (Node.leaf L), rfl, ?_⟩
      simp [command_classes, ccGo, lookup_insertEntry]
  | a :: b :: p, m, L, _ => by
      obtain ⟨sub, hsub, hcc⟩ := register_ok (b :: p) [] L (by simp)
      refine ⟨insertEntry m a (Node.branch sub), ?_, ?_⟩
      · simp [register, hsub]
      · simpa [command_classes, ccGo, lookup_insertEntry] using hcc

/-- C7: `register` walks/creates a fresh branch for every token but the
last (overwriting whatever node existed there) and binds the final token to
the new leaf, so on ANY starting tree `m` — in particular one where a leaf
was already registered at `P` — a registered path resolves to the leaf just
written: registering `L1` and then `L2` at the same path `P` leaves
`command_classes P = L2` (last write wins). -/
theorem register_last_write_wins (m : Entries) (P L1 L2 : List String) (h : P ≠ []) :
    (register m P L1).map (fun m1 => command_classes m1 P) = some (some L1) ∧
    ((register m P L1).bind (fun m1 => register m1 P L2)).map
      (fun m2 => command_classes m2 P) = some (some L2) := by
  obtain ⟨m1, hm1, hcc1⟩ := register_ok P m L1 h
  obtain ⟨m2, hm2, hcc2⟩ := register_ok P m1 L2 h
  refine ⟨?_, ?_⟩
  · simp [hm1, hcc1]
  · simp [hm1, hm2, hcc2]

/-- Witness for C7: on the default tree, registering at the existing path
`["config", "apply"]` replaces the old leaf, and a second registration
replaces the first. -/
theorem register_last_write_wins_witness :
    (["config", "apply"] : List String) ≠ [] ∧
    ((register DEFAULT_TREE ["config", "apply"] ["A"]).map
       (fun m1 => command_classes m1 ["config", "apply"]) = some (some ["A"]) ∧
     ((register DEFAULT_TREE ["config", "apply"] ["A"]).bind
        (fun m1 => register m1 ["config", "apply"] ["B"])).map
       (fun m2 => command_classes m2 ["config", "apply"]) = some (some ["B"])) :=
  ⟨by decide,
   register_last_write_wins DEFAULT_TREE ["config", "apply"] ["A"] ["B"] (by decide)⟩

/-! ### Statement-level model of the `command_classes` loop body

To settle the dead-code claim we embed the body of the `for arg in args`
loop of `command_classes` statement by statement, with Python's `return`
and `continue` as early exits that skip the remaining statements of the
body.  The full body (`bodyStmts`) contains every statement of the source,
including the two that follow the unconditional `return None`; the cleaned
body (`bodyStmtsClean`) drops those two. -/

/-- The local variables of `command_classes` during the loop: `value`
(`None` is representable because the dead `value = next_value` assignment
could store `None`), `last_value` (always `None` or a list of command
classes) and `next_value`. -/
structure CCState where
  value : Option Node
  last : Option (List String)
  next : Option Node

/-- How a statement leaves the loop body: `ret` is Python `return`,
`cont` is `continue` carrying the updated locals, `attrError` is an
escaping `AttributeError` from calling `.get` on a non-dict. -/
inductive CCExit where
  | ret (r : Option (List String))
  | cont (s : CCState)
  | attrError

/-- A statement: either exits the body or falls through with new locals. -/
abbrev CCStep := CCState → CCExit ⊕ CCState

/-- Sequencing: once a statement has exited the body, later statements of
the body never run. -/
def ccSeq (r : CCExit ⊕ CCState) (f : CCStep) : CCExit ⊕ CCState :=
  match r with
  | Sum.inl e => Sum.inl e
  | Sum.inr s => f s

/-- Run the statements of a body in order from a state. -/
def runSteps (steps : List CCStep) (s : CCState) : CCExit ⊕ CCState :=
  steps.foldl ccSeq (Sum.inr s)

/-- Statement `if last_value is not None: return None`. -/
def stepGuard : CCStep := fun s =>
  if s.last.isSome then Sum.inl (CCExit.ret none) else Sum.inr s

/-- Statement `next_value = value.get(arg)`; calling `.get` on a list or `None` raises. -/
def stepFetch (arg : String) : CCStep := fun s =>
  match s.value with
  | some (Node.branch m) => Sum.inr { s with next := lookup m arg }
  | _ => Sum.inl CCExit.attrError

/-- Statement `if isinstance(next_value, list): last_value = next_value; continue`. -/
def stepListCont : CCStep := fun s =>
  match s.next with
  | some (Node.leaf l) => Sum.inl (CCExit.cont { s with last := some l })
  | _ => Sum.inr s

/-- Statement `if isinstance(next_value, dict): value = next_value; continue`. -/
def stepDictCont : CCStep := fun s =>
  match s.next with
  | some (Node.branch m) => Sum.inl (CCExit.cont { s with value := some (Node.branch m) })
  | _ => Sum.inr s

/-- Statement `return None`. -/
def stepRetNone : CCStep := fun _ => Sum.inl (CCExit.ret none)

/-- Dead statement: `if isinstance(next_value, list): return next_value`. -/
def stepListRet : CCStep := fun s =>
  match s.next with
  | some (Node.leaf l) => Sum.inl (CCExit.ret (some l))
  | _ => Sum.inr s

/-- Dead statement: `value = next_value`. -/
def stepAssign : CCStep := fun s => Sum.inr { s with value := s.next }

/-- The loop body of `command_classes` exactly as written in the source,
dead statements included. -/
def bodyStmts (arg : String) : List CCStep :=
  [stepGuard, stepFetch arg, stepListCont, stepDictCont, stepRetNone,
   stepListRet, stepAssign]

/-- The loop body with the statements after the unconditional `return None`
removed. -/
def bodyStmtsClean (arg : String) : List CCStep :=
  [stepGuard, stepFetch arg, stepListCont, stepDictCont, stepRetNone]

/-- Outcome of the whole function: a returned value or an escaping
exception. -/
inductive CCResult where
  | ok (r : Option (List String))
  | err
deriving DecidableEq

/-- The `for arg in args` loop: run the body on each token; a `return`
ends the function, a `continue` (or falling through the body) moves to the
next token; after the loop the function returns `last_value`. -/
def ccLoop (body : String → List CCStep) : List String → CCState → CCResult
  | [], s => CCResult.ok s.last
  | a :: rest, s =>
      match runSteps (body a) s with
      | Sum.inl (CCExit.ret r) => CCResult.ok r
      | Sum.inl (CCExit.cont s') => ccLoop body rest s'
      | Sum.inl CCExit.attrError => CCResult.err
      | Sum.inr s' => ccLoop body rest s'

/-- The function `command_classes` as the statement-level model, full body. -/
def command_classes_steps (tree : Entries) (args : List String) : CCResult :=
  ccLoop bodyStmts args ⟨some (Node.branch tree), none, none⟩

/-- The function `command_classes` as the statement-level model with the dead secondary
check removed. -/
def command_classes_dead_removed (tree : Entries) (args : List String) : CCResult :=
  ccLoop bodyStmtsClean args ⟨some (Node.branch tree), none, none⟩

/-- Anything sequenced after the unconditional `return None` never runs. -/
theorem deadSteps_noop (r : CCExit ⊕ CCState) :
    ccSeq (ccSeq (ccSeq r stepRetNone) stepListRet) stepAssign = ccSeq r stepRetNone := by
  cases r <;> rfl

/-- The full loop body and the cleaned loop body agree on every state. -/
theorem body_full_eq_clean (a : String) (s : CCState) :
    runSteps (bodyStmts a) s = runSteps (bodyStmtsClean a) s := by
  simp only [runSteps, bodyStmts, bodyStmtsClean, List.foldl]
  exact deadSteps_noop _

theorem ccLoop_full_eq_clean : ∀ (args : List String) (s : CCState),
    ccLoop bodyStmts args s = ccLoop bodyStmtsClean args s
  | [], _ => rfl
  | a :: rest, s => by
      simp only [ccLoop, body_full_eq_clean a s]
      cases runSteps (bodyStmtsClean a) s with
      | inl e =>
          cases e with
          | ret r => rfl
          | cont s' => exact ccLoop_full_eq_clean rest s'
          | attrError => rfl
      | inr s' => exact ccLoop_full_eq_clean rest s'

/-- C9: the secondary trailing-garbage check after the unconditional
`return None` inside the `command_classes` loop is dead code: on every
tree and every token sequence the statement-level model of the source
computes the same result as the model with those trailing statements
removed. -/
theorem command_classes_dead_code_equiv (tree : Entries) (args : List String) :
    command_classes_steps tree args = command_classes_dead_removed tree args :=
  ccLoop_full_eq_clean args _

/-- The statement-level model agrees with the direct functional embedding
`ccGo` of `command_classes` (so the two readings of the source coincide and
the walk never raises). -/
theorem ccLoop_eq_ccGo : ∀ (args : List String) (m : Entries)
    (last : Option (List String)) (nx : Option Node),
    ccLoop bodyStmts args ⟨some (Node.branch m), last, nx⟩ = CCResult.ok (ccGo m last args)
  | [], _, _, _ => rfl
  | a :: rest, m, last, nx => by
      cases hl : last with
      | some l =>
          simp [ccLoop, runSteps, bodyStmts, List.foldl, ccSeq, stepGuard, ccGo]
      | none =>
          simp only [ccLoop, runSteps, bodyStmts, List.foldl, ccSeq, stepGuard,
            Option.isSome_none, Bool.false_eq_true, if_false, stepFetch]
          cases hk : lookup m a with
          | none =>
              simp [ccSeq, stepListCont, stepDictCont, stepRetNone, ccGo, hk]
          | some n =>
            cases n with
            | leaf l =>
                simp [ccSeq, stepListCont, ccGo, hk, ccLoop_eq_ccGo rest m (some l) (some (Node.leaf l))]
            | branch m2 =>
                simp [ccSeq, stepListCont, stepDictCont, ccGo, hk,
                  ccLoop_eq_ccGo rest m2 none (some (Node.branch m2))]

/-- The direct embedding `command_classes` and the statement-level model
of the source agree on every input. -/
theorem command_classes_steps_eq (tree : Entries) (args : List String) :
    command_classes_steps tree args = CCResult.ok (command_classes tree args) :=
  ccLoop_eq_ccGo args tree none none

/-! ### Errors, events and the Dispatcher (`googkit/__init__.py: main`)

`main` is modelled from the point where the command tokens have been
parsed: resolution via `command_classes`, the help-and-exit path, and the
`try` loop that lazily loads configuration, builds an `Environment` per
iteration, constructs and runs each command class, and catches
`GoogkitError`.  Runs are modelled as traces of observable events. -/

/-- Modelled from the spec: the error classes of the missing
`googkit/lib/error.py`.  `googkit msg` is a `GoogkitError` with message
`msg`; `configRequired` is the ConfigRequired error of §7 (raised by
`Command.run()` when config is absent); `other msg` is any non-googkit
exception. -/
inductive Err where
  | configRequired
  | googkit (msg : String)
  | other (msg : String)
deriving DecidableEq

/-- Modelled from the spec: `isinstance(e, GoogkitError)` for the missing
`googkit/lib/error.py`. `ConfigRequired` counts as a `GoogkitError`: the
base-class test `test_command.py` checks it with
`assertRaises(GoogkitError)`. -/
def Err.isGoogkit : Err → Bool
  | Err.other _ => false
  | _ => true

/-- Modelled from the spec: `str(e)` for the error classes of the missing
`googkit/lib/error.py`: a `GoogkitError`'s string is its message; the
exact ConfigRequired message is not in the sources. -/
def Err.str : Err → String
  | Err.configRequired => "Required config file is not found."
  | Err.googkit m => m
  | Err.other m => m

/-- Observable events of a run. -/
inductive Ev where
  | loadConfig
  | newEnv (id : Nat)
  | construct (cls : String) (envId : Nat)
  | runCall (cls : String)
  | runInternalCall (cls : String)
  | log (msg : String)
  | print (line : String)
deriving DecidableEq

/-- How the process ends: `main` returns normally, `sys.exit(code)` is
called, or an uncaught exception escapes. -/
inductive Outcome where
  | finished
  | exited (code : Nat)
  | crashed (e : Err)
deriving DecidableEq

/-- A command class as the Dispatcher sees it: its name, its class-level
`needs_config()` flag, and the outcome of `run()` on its instance
(`none` = returns, `some e` = raises `e`).  In `main` a class that needs
config always runs with config present, so `run()`'s outcome is taken as
a given behaviour here. -/
structure ClsSpec where
  name : String
  needs_config : Bool
  runResult : Option Err
deriving DecidableEq

/-- The events of one iteration of `main`'s `for cls in classes` loop:
config is loaded if none was loaded yet and the class needs it, then a
fresh `Environment` is built (identity `k`), the class is instantiated
with it, and `run()` is called. -/
def iterEvs (cfgLoaded : Bool) (c : ClsSpec) (k : Nat) : List Ev :=
  (if !cfgLoaded && c.needs_config then [Ev.loadConfig] else []) ++
    [Ev.newEnv k, Ev.construct c.name k, Ev.runCall c.name]

/-- The `try` loop of `main` over the resolved classes: `cfgLoaded` is whether
`config` is not `None`, `k` numbers the `Environment` objects created so
far (object identity).  A raising `run()` ends the loop with that
exception. -/
def dispatchLoop : List ClsSpec → Bool → Nat → List Ev × Option Err
  | [], _, _ => ([], none)
  | c :: rest, cfgLoaded, k =>
      match c.runResult with
      | some e => (iterEvs cfgLoaded c k, some e)
      | none =>
          (iterEvs cfgLoaded c k ++
             (dispatchLoop rest (cfgLoaded || c.needs_config) (k + 1)).1,
           (dispatchLoop rest (cfgLoaded || c.needs_config) (k + 1)).2)

/-- The `try`/`except GoogkitError` around the loop: a `GoogkitError` is
logged as `'[Error] ' + str(e)` and the process exits with status 1;
any other exception escapes. -/
def run_resolved (classes : List ClsSpec) : List Ev × Outcome :=
  match (dispatchLoop classes false 0).2 with
  | none => ((dispatchLoop classes false 0).1, Outcome.finished)
  | some e =>
      if e.isGoogkit then
        ((dispatchLoop classes false 0).1 ++ [Ev.log ("[Error] " ++ e.str)],
         Outcome.exited 1)
      else ((dispatchLoop classes false 0).1, Outcome.crashed e)

/-- The `Usage:` line of `print_help` in `googkit/__init__.py`. -/
def usage_line (rc : List String) : String :=
  if rc.isEmpty then "Usage: googkit <command>"
  else "Usage: googkit " ++ String.intercalate " " rc ++ " <command>"

/-- Embeds `print_help(tree, commands)` from `googkit/__init__.py`: the printed
lines — the usage line rooted at `right_commands`, a blank line, the
`Available commands:` header and one indented line per available child.
`none` models an exception escaping from `available_commands`. -/
def print_help (tree : Entries) (commands : List String) : Option (List String) :=
  (available_commands tree (right_commands tree commands)).map (fun avail =>
    usage_line (right_commands tree commands) :: "" :: "Available commands:" ::
      avail.map (fun s => "    " ++ s))

/-- Embeds `main()` from `googkit/__init__.py`, from the point where the command
tokens `commands` are known (argument parsing and the `--version`
short-circuit are outside the modelled core): resolve via
`command_classes`; on NOT_FOUND print help and `sys.exit()` (exit status
0); otherwise run the resolved classes.  `impl` gives the behaviour of
each named command class. -/
def googkit_main (impl : String → ClsSpec) (tree : Entries) (commands : List String) :
    List Ev × Outcome :=
  match command_classes tree commands with
  | none =>
      match print_help tree commands with
      | some lines => (lines.map Ev.print, Outcome.exited 0)
      | none => ([], Outcome.crashed (Err.other "AttributeError"))
  | some ids => run_resolved (ids.map impl)

/-- The identities of the `Environment` objects created, in order. -/
def envIds (evs : List Ev) : List Nat :=
  evs.filterMap (fun e =>
    match e with
    | Ev.newEnv i => some i
    | _ => none)

/-- The environment identity passed to each constructed command, in
order. -/
def constructEnvIds (evs : List Ev) : List Nat :=
  evs.filterMap (fun e =>
    match e with
    | Ev.construct _ i => some i
    | _ => none)

/-- The names of the command classes instantiated, in order. -/
def constructNames (evs : List Ev) : List String :=
  evs.filterMap (fun e =>
    match e with
    | Ev.construct n _ => some n
    | _ => none)

/-- The names of the command classes whose `run()` was called, in order. -/
def runNames (evs : List Ev) : List String :=
  evs.filterMap (fun e =>
    match e with
    | Ev.runCall n => some n
    | _ => none)

/-- The messages logged at error severity, in order. -/
def logMsgs (evs : List Ev) : List String :=
  evs.filterMap (fun e =>
    match e with
    | Ev.log m => some m
    | _ => none)

/-- How many times configuration was loaded. -/
def countLoad (evs : List Ev) : Nat :=
  (evs.filter (fun e =>
    match e with
    | Ev.loadConfig => true
    | _ => false)).length

/-! ### The Command contract and SequenceCommand -/

/-- Modelled from the spec: a command variant of the missing
`googkit/commands/command.py`, described by §4.3 of the spec and exercised
by `test/commands/test_command.py`: its name, its `needs_config()` flag,
and the behaviour of its `run_internal()` (the events it performs and
whether it raises). -/
structure CmdSpec where
  name : String
  needs_config : Bool
  bodyEvents : List Ev
  bodyResult : Option Err
deriving DecidableEq

/-- Modelled from the spec: `Command.run()` of the missing
`googkit/commands/command.py` (§4.3, `test_command.py`): if
`needs_config()` is true and the environment's config is absent, raise
ConfigRequired before any command-specific work; otherwise delegate
exactly once to `run_internal()` (the `runInternalCall` event marks the
delegation, followed by the body's own events). -/
def command_run (c : CmdSpec) (configPresent : Bool) : List Ev × Option Err :=
  if c.needs_config && !configPresent then ([], some Err.configRequired)
  else (Ev.runInternalCall c.name :: c.bodyEvents, c.bodyResult)

/-- The trace of one member of a SequenceCommand: constructed with the
shared environment `envId`, then its `run()` events. -/
def memberTrace (configPresent : Bool) (envId : Nat) (m : CmdSpec) : List Ev :=
  Ev.construct m.name envId :: (command_run m configPresent).1

/-- Modelled from the spec: `SequenceCommand.run_internal()` of the missing
`googkit/commands/sequence.py` (§4.4): instantiate each member class of
`_internal_commands()` with the same ExecutionEnvironment reference
(`envId`), call `run()` on each strictly in order, stop at the first
member whose `run()` raises and propagate that exception unchanged. -/
def sequence_run_internal (members : List CmdSpec) (envId : Nat) (configPresent : Bool) :
    List Ev × Option Err :=
  match members with
  | [] => ([], none)
  | m :: rest =>
      match (command_run m configPresent).2 with
      | some e => (memberTrace configPresent envId m, some e)
      | none =>
          (memberTrace configPresent envId m ++
             (sequence_run_internal rest envId configPresent).1,
           (sequence_run_internal rest envId configPresent).2)

/-- Embeds `SetupCommand._internal_commands()` from `googkit/commands/setup.py`:
the ordered member classes of the setup SequenceCommand. -/
def setupInternalCommands : List String :=
  ["DownloadCommand", "UpdateDepsCommand", "ApplyConfigCommand"]

/-! ### `InitCommand.copy_template` (`googkit/commands/init.py`) -/

/-- Embeds `InitCommand.copy_template(dst_dir)` from `googkit/commands/init.py`
on directory listings: `tmpl` is `os.listdir(template_dir)` and `dst` is
`os.listdir(dst_dir)`.  The conflict set `set(os.listdir(dst_dir)) &
set(os.listdir(template_dir))` is modelled as the sublist of `dst` whose
entries occur in `tmpl` (Python's set iteration order is unspecified;
this fixes one enumeration order for the joined message).  On conflict a
`GoogkitError` naming the conflicting entries is raised and the
destination listing is unchanged; otherwise `distutils` `copy_tree`
merges the template entries into the destination. -/
def copy_template (tmpl dst : List String) : Option Err × List String :=
  if (dst.filter (fun e => tmpl.contains e)).isEmpty then
    (none, dst ++ tmpl.filter (fun e => !dst.contains e))
  else
    (some (Err.googkit ("Conflicted files: " ++
       String.intercalate ", " (dst.filter (fun e => tmpl.contains e)))), dst)

/-! ### Claims about the Command contract, SequenceCommand and InitCommand -/

/-- C6: for every command whose `needs_config()` is true, `run()` with an
absent config raises ConfigRequired (a GoogkitError) immediately — the
trace is empty, so `run_internal` performed no work; for every command
whose `needs_config()` is false or whose config is present, `run()`
delegates exactly once to `run_internal()`. -/
theorem command_run_template (c : CmdSpec) (configPresent : Bool) :
    (c.needs_config = true → configPresent = false →
      command_run c configPresent = ([], some Err.configRequired) ∧
      Err.isGoogkit Err.configRequired = true) ∧
    (c.needs_config = false ∨ configPresent = true →
      command_run c configPresent =
        (Ev.runInternalCall c.name :: c.bodyEvents, c.bodyResult)) := by
  constructor
  · intro h1 h2
    subst h2
    exact ⟨by simp [command_run, h1], rfl⟩
  · intro h
    cases h with
    | inl h => simp [command_run, h]
    | inr h => simp [command_run, h]

/-- Witness for C6: a config-needing command run without config raises
ConfigRequired with no work done; the same command run with config
delegates once to `run_internal`. -/
theorem command_run_template_witness :
    (command_run ⟨"ApplyConfigCommand", true, [], none⟩ false =
       ([], some Err.configRequired) ∧
     Err.isGoogkit Err.configRequired = true) ∧
    command_run ⟨"ApplyConfigCommand", true, [], none⟩ true =
      (Ev.runInternalCall "ApplyConfigCommand" :: [], none) :=
  ⟨(command_run_template ⟨"ApplyConfigCommand", true, [], none⟩ false).1 rfl rfl,
   (command_run_template ⟨"ApplyConfigCommand", true, [], none⟩ true).2 (Or.inr rfl)⟩

/-- C3: a SequenceCommand's `run_internal` constructs every member with
the same environment reference and runs them strictly in order; when the
members split as `pre ++ [c] ++ post` with every `pre` member's `run()`
succeeding and `c`'s `run()` raising `e`, the produced trace is exactly
the concatenated member traces of `pre ++ [c]` (all sharing `envId`),
the `post` members are never constructed or run, and the exception
propagated to the caller is `e` unchanged. -/
theorem sequence_fail_fast (pre : List CmdSpec) (c : CmdSpec) (post : List CmdSpec)
    (envId : Nat) (configPresent : Bool) (e : Err)
    (hpre : ∀ x ∈ pre, (command_run x configPresent).2 = none)
    (hc : (command_run c configPresent).2 = some e) :
    sequence_run_internal (pre ++ c :: post) envId configPresent =
      (((pre ++ [c]).map (memberTrace configPresent envId)).flatten, some e) := by
  induction pre with
  | nil => simp [sequence_run_internal, hc]
  | cons p rest ih =>
      have hp : (command_run p configPresent).2 = none := hpre p (by simp)
      have ih2 := ih (fun x hx => hpre x (by simp [hx]))
      simp only [List.cons_append, sequence_run_internal, hp, List.map_cons,
        List.flatten]
      simp [ih2]

/-- Witness for C3: the three setup members with the middle one failing —
the third is never constructed, the failure surfaces unchanged. -/
theorem sequence_fail_fast_witness :
    ((∀ x ∈ [(⟨"DownloadCommand", false, [], none⟩ : CmdSpec)],
        (command_run x true).2 = none) ∧
     (command_run (⟨"UpdateDepsCommand", false, [], some (Err.googkit "boom")⟩ : CmdSpec) true).2 =
       some (Err.googkit "boom")) ∧
    sequence_run_internal
        [⟨"DownloadCommand", false, [], none⟩,
         ⟨"UpdateDepsCommand", false, [], some (Err.googkit "boom")⟩,
         ⟨"ApplyConfigCommand", false, [], none⟩] 7 true =
      (([(⟨"DownloadCommand", false, [], none⟩ : CmdSpec),
         ⟨"UpdateDepsCommand", false, [], some (Err.googkit "boom")⟩].map
           (memberTrace true 7)).flatten, some (Err.googkit "boom")) :=
  ⟨⟨by decide, by decide⟩,
   sequence_fail_fast [⟨"DownloadCommand", false, [], none⟩]
     ⟨"UpdateDepsCommand", false, [], some (Err.googkit "boom")⟩
     [⟨"ApplyConfigCommand", false, [], none⟩] 7 true (Err.googkit "boom")
     (by decide) (by decide)⟩

/-- C10: `copy_template` checks the intersection of the destination and
template listings before copying anything; when an entry name is shared it
raises a `GoogkitError` naming the conflicting entries and the destination
listing is returned unchanged — no entry is copied. -/
theorem copy_template_conflict_atomic (tmpl dst : List String)
    (h : dst.filter (fun e => tmpl.contains e) ≠ []) :
    copy_template tmpl dst =
      (some (Err.googkit ("Conflicted files: " ++
         String.intercalate ", " (dst.filter (fun e => tmpl.contains e)))), dst) ∧
    (copy_template tmpl dst).2 = dst ∧
    (Err.googkit ("Conflicted files: " ++
       String.intercalate ", " (dst.filter (fun e => tmpl.contains e)))).isGoogkit = true := by
  have hne : (dst.filter (fun e => tmpl.contains e)).isEmpty = false := by
    rcases hf : dst.filter (fun e => tmpl.contains e) with _ | ⟨a, l⟩
    · exact absurd hf h
    · rfl
  have hfalse : ¬ ((dst.filter (fun e => tmpl.contains e)).isEmpty = true) := by
    rw [hne]; exact Bool.false_ne_true
  refine ⟨?_, ?_, rfl⟩ <;> simp only [copy_template, if_neg hfalse]

/-- Witness for C10: destination `["README.md", "main.js"]` shares
`README.md` with the template; the error names it and the destination is
unchanged. -/
theorem copy_template_conflict_atomic_witness :
    (["README.md", "main.js"].filter
       (fun e => ["README.md", "closure"].contains e) ≠ []) ∧
    copy_template ["README.md", "closure"] ["README.md", "main.js"] =
      (some (Err.googkit "Conflicted files: README.md"), ["README.md", "main.js"]) :=
  ⟨by decide,
   by
     have h := copy_template_conflict_atomic ["README.md", "closure"]
       ["README.md", "main.js"] (by decide)
     simpa using h.1⟩

/-! ### Trace lemmas for the Dispatcher -/

theorem envIds_append (a b : List Ev) : envIds (a ++ b) = envIds a ++ envIds b := by
  simp [envIds]

theorem constructEnvIds_append (a b : List Ev) :
    constructEnvIds (a ++ b) = constructEnvIds a ++ constructEnvIds b := by
  simp [constructEnvIds]

theorem constructNames_append (a b : List Ev) :
    constructNames (a ++ b) = constructNames a ++ constructNames b := by
  simp [constructNames]

theorem runNames_append (a b : List Ev) :
    runNames (a ++ b) = runNames a ++ runNames b := by
  simp [runNames]

theorem logMsgs_append (a b : List Ev) : logMsgs (a ++ b) = logMsgs a ++ logMsgs b := by
  simp [logMsgs]

theorem countLoad_append (a b : List Ev) :
    countLoad (a ++ b) = countLoad a + countLoad b := by
  simp [countLoad]

theorem envIds_iterEvs (cfg : Bool) (c : ClsSpec) (k : Nat) :
    envIds (iterEvs cfg c k) = [k] := by
  by_cases hb : (!cfg && c.needs_config) = true <;> simp [iterEvs, envIds, hb]

theorem constructEnvIds_iterEvs (cfg : Bool) (c : ClsSpec) (k : Nat) :
    constructEnvIds (iterEvs cfg c k) = [k] := by
  by_cases hb : (!cfg && c.needs_config) = true <;> simp [iterEvs, constructEnvIds, hb]

theorem constructNames_iterEvs (cfg : Bool) (c : ClsSpec) (k : Nat) :
    constructNames (iterEvs cfg c k) = [c.name] := by
  by_cases hb : (!cfg && c.needs_config) = true <;> simp [iterEvs, constructNames, hb]

theorem runNames_iterEvs (cfg : Bool) (c : ClsSpec) (k : Nat) :
    runNames (iterEvs cfg c k) = [c.name] := by
  by_cases hb : (!cfg && c.needs_config) = true <;> simp [iterEvs, runNames, hb]

theorem logMsgs_iterEvs (cfg : Bool) (c : ClsSpec) (k : Nat) :
    logMsgs (iterEvs cfg c k) = [] := by
  by_cases hb : (!cfg && c.needs_config) = true <;> simp [iterEvs, logMsgs, hb]

theorem countLoad_iterEvs (cfg : Bool) (c : ClsSpec) (k : Nat) :
    countLoad (iterEvs cfg c k) = if (!cfg && c.needs_config) = true then 1 else 0 := by
  by_cases hb : (!cfg && c.needs_config) = true <;> simp [iterEvs, countLoad, hb]

/-- Once configuration is loaded, the rest of the loop never loads it
again. -/
theorem countLoad_dispatchLoop_loaded : ∀ (cs : List ClsSpec) (k : Nat),
    countLoad (dispatchLoop cs true k).1 = 0
  | [], _ => rfl
  | c :: rest, k => by
      cases hr : c.runResult with
      | some e => simp [dispatchLoop, hr, countLoad_iterEvs]
      | none =>
          simp [dispatchLoop, hr, countLoad_append, countLoad_iterEvs,
            countLoad_dispatchLoop_loaded rest (k + 1)]

/-- The loop loads configuration at most once. -/
theorem countLoad_dispatchLoop_le_one : ∀ (cs : List ClsSpec) (k : Nat),
    countLoad (dispatchLoop cs false k).1 ≤ 1
  | [], _ => by simp [dispatchLoop, countLoad]
  | c :: rest, k => by
      cases hr : c.runResult with
      | some e =>
          rw [dispatchLoop, hr]
          simp only [countLoad_iterEvs]
          split <;> simp
      | none =>
          rw [dispatchLoop, hr]
          cases hn : c.needs_config with
          | true =>
              simp [countLoad_append, countLoad_iterEvs, hn,
                countLoad_dispatchLoop_loaded rest (k + 1)]
          | false =>
              simp [countLoad_append, countLoad_iterEvs, hn,
                countLoad_dispatchLoop_le_one rest (k + 1)]

/-- If no class needs configuration, it is never loaded. -/
theorem countLoad_dispatchLoop_zero : ∀ (cs : List ClsSpec) (cfg : Bool) (k : Nat),
    (∀ c ∈ cs, c.needs_config = false) → countLoad (dispatchLoop cs cfg k).1 = 0
  | [], _, _, _ => rfl
  | c :: rest, cfg, k, h => by
      have hn : c.needs_config = false := h c (by simp)
      have hrest : ∀ x ∈ rest, x.needs_config = false := fun x hx => h x (by simp [hx])
      cases hr : c.runResult with
      | some e => simp [dispatchLoop, hr, countLoad_iterEvs, hn]
      | none =>
          simp [dispatchLoop, hr, countLoad_append, countLoad_iterEvs, hn,
            countLoad_dispatchLoop_zero rest cfg (k + 1) hrest]

/-- If every class succeeds and some class needs configuration, it is
loaded exactly once. -/
theorem countLoad_dispatchLoop_one : ∀ (cs : List ClsSpec) (k : Nat),
    (∀ c ∈ cs, c.runResult = none) → (∃ c ∈ cs, c.needs_config = true) →
    countLoad (dispatchLoop cs false k).1 = 1
  | [], _, _, hex => by simp at hex
  | c :: rest, k, hall, hex => by
      have hr : c.runResult = none := hall c (by simp)
      cases hn : c.needs_config with
      | true =>
          simp [dispatchLoop, hr, countLoad_append, countLoad_iterEvs, hn,
            countLoad_dispatchLoop_loaded rest (k + 1)]
      | false =>
          have hex2 : ∃ x ∈ rest, x.needs_config = true := by
            obtain ⟨x, hx, hxn⟩ := hex
            rcases List.mem_cons.mp hx with h1 | h2
            · rw [h1] at hxn; rw [hn] at hxn; exact absurd hxn (by simp)
            · exact ⟨x, h2, hxn⟩
          have hrest : ∀ x ∈ rest, x.runResult = none := fun x hx => hall x (by simp [hx])
          simp [dispatchLoop, hr, countLoad_append, countLoad_iterEvs, hn,
            countLoad_dispatchLoop_one rest (k + 1) hrest hex2]

/-- One fresh `Environment` per constructed command instance: the
environment identities form the consecutive range starting at `k`, each
construction is paired with the environment just built, and their number
equals the number of instances. -/
theorem dispatchLoop_env_pairing : ∀ (cs : List ClsSpec) (cfg : Bool) (k : Nat),
    ∃ n, envIds (dispatchLoop cs cfg k).1 = List.range' k n ∧
      constructEnvIds (dispatchLoop cs cfg k).1 = List.range' k n ∧
      (constructNames (dispatchLoop cs cfg k).1).length = n
  | [], _, _ => ⟨0, rfl, rfl, rfl⟩
  | c :: rest, cfg, k => by
      cases hr : c.runResult with
      | some e =>
          refine ⟨1, ?_, ?_, ?_⟩ <;>
            simp [dispatchLoop, hr, envIds_iterEvs, constructEnvIds_iterEvs,
              constructNames_iterEvs, List.range'_succ, List.range']
      | none =>
          obtain ⟨n, h1, h2, h3⟩ :=
            dispatchLoop_env_pairing rest (cfg || c.needs_config) (k + 1)
          refine ⟨n + 1, ?_, ?_, ?_⟩ <;>
            simp [dispatchLoop, hr, envIds_append, constructEnvIds_append,
              constructNames_append, envIds_iterEvs, constructEnvIds_iterEvs,
              constructNames_iterEvs, h1, h2, h3, List.range'_succ]

/-- The trace of `run_resolved` differs from the loop trace only by a
possible trailing log line, which none of the extractors below sees. -/
theorem run_resolved_extractors (cs : List ClsSpec) :
    envIds (run_resolved cs).1 = envIds (dispatchLoop cs false 0).1 ∧
    constructEnvIds (run_resolved cs).1 = constructEnvIds (dispatchLoop cs false 0).1 ∧
    constructNames (run_resolved cs).1 = constructNames (dispatchLoop cs false 0).1 ∧
    runNames (run_resolved cs).1 = runNames (dispatchLoop cs false 0).1 ∧
    countLoad (run_resolved cs).1 = countLoad (dispatchLoop cs false 0).1 := by
  rcases hd : (dispatchLoop cs false 0).2 with _ | e
  · simp [run_resolved, hd]
  · by_cases hg : e.isGoogkit = true <;>
      simp [run_resolved, hd, hg, envIds_append, constructEnvIds_append,
        constructNames_append, runNames_append, countLoad_append,
        envIds, constructEnvIds, constructNames, runNames, countLoad]

/-- C2 (amended): in every Dispatcher run whose resolution succeeds,
configuration is loaded at most once, lazily (never when no resolved class
needs it, exactly once when all run and some class needs it); but an
`Environment` is constructed once per command class — the environment
identities are the distinct consecutive values `0, 1, …`, one per
constructed instance and paired with it — rather than a single
environment shared by identity among the instances. -/
theorem dispatcher_env_per_command (impl : String → ClsSpec) (tree : Entries)
    (commands : List String) (ids : List String)
    (hres : command_classes tree commands = some ids) :
    countLoad (googkit_main impl tree commands).1 ≤ 1 ∧
    ((∀ c ∈ ids.map impl, c.needs_config = false) →
      countLoad (googkit_main impl tree commands).1 = 0) ∧
    ((∀ c ∈ ids.map impl, c.runResult = none) →
      (∃ c ∈ ids.map impl, c.needs_config = true) →
      countLoad (googkit_main impl tree commands).1 = 1) ∧
    envIds (googkit_main impl tree commands).1 =
      List.range (envIds (googkit_main impl tree commands).1).length ∧
    constructEnvIds (googkit_main impl tree commands).1 =
      envIds (googkit_main impl tree commands).1 ∧
    (constructNames (googkit_main impl tree commands).1).length =
      (envIds (googkit_main impl tree commands).1).length := by
  have hmain : googkit_main impl tree commands = run_resolved (ids.map impl) := by
    simp [googkit_main, hres]
  obtain ⟨he, hce, hcn, _, hcl⟩ := run_resolved_extractors (ids.map impl)
  obtain ⟨n, h1, h2, h3⟩ := dispatchLoop_env_pairing (ids.map impl) false 0
  rw [hmain, he, hce, hcn, hcl]
  refine ⟨countLoad_dispatchLoop_le_one _ 0, ?_, ?_, ?_, ?_, ?_⟩
  · exact countLoad_dispatchLoop_zero _ false 0
  · exact countLoad_dispatchLoop_one _ 0
  · rw [h1, List.length_range', List.range_eq_range']
  · rw [h1, h2]
  · rw [h1, h3, List.length_range']

/-- The behaviour of the default command classes used in witness runs:
`ApplyConfigCommand` needs configuration, everything else does not; every
`run()` succeeds. -/
def sampleImpl : String → ClsSpec := fun n =>
  { name := n, needs_config := n == "ApplyConfigCommand", runResult := none }

/-- C2 counterexample: resolving `["ready"]` on the default tree yields two
command classes; the Dispatcher then constructs TWO `Environment` objects
(identities 0 and 1), one per command instance — not a single environment
constructed exactly once and shared by identity. -/
theorem dispatcher_env_counterexample :
    command_classes DEFAULT_TREE ["ready"] =
      some ["ApplyConfigCommand", "UpdateDepsCommand"] ∧
    envIds (googkit_main sampleImpl DEFAULT_TREE ["ready"]).1 = [0, 1] ∧
    constructNames (googkit_main sampleImpl DEFAULT_TREE ["ready"]).1 =
      ["ApplyConfigCommand", "UpdateDepsCommand"] ∧
    ¬ (envIds (googkit_main sampleImpl DEFAULT_TREE ["ready"]).1).length = 1 := by
  decide

/-- Witness for C2 (amended) on the `["ready"]` run of the default tree. -/
theorem dispatcher_env_per_command_witness :
    command_classes DEFAULT_TREE ["ready"] =
      some ["ApplyConfigCommand", "UpdateDepsCommand"] ∧
    (countLoad (googkit_main sampleImpl DEFAULT_TREE ["ready"]).1 ≤ 1 ∧
     ((∀ c ∈ (["ApplyConfigCommand", "UpdateDepsCommand"] : List String).map sampleImpl,
         c.needs_config = false) →
       countLoad (googkit_main sampleImpl DEFAULT_TREE ["ready"]).1 = 0) ∧
     ((∀ c ∈ (["ApplyConfigCommand", "UpdateDepsCommand"] : List String).map sampleImpl,
         c.runResult = none) →
      (∃ c ∈ (["ApplyConfigCommand", "UpdateDepsCommand"] : List String).map sampleImpl,
         c.needs_config = true) →
       countLoad (googkit_main sampleImpl DEFAULT_TREE ["ready"]).1 = 1) ∧
     envIds (googkit_main sampleImpl DEFAULT_TREE ["ready"]).1 =
       List.range (envIds (googkit_main sampleImpl DEFAULT_TREE ["ready"]).1).length ∧
     constructEnvIds (googkit_main sampleImpl DEFAULT_TREE ["ready"]).1 =
       envIds (googkit_main sampleImpl DEFAULT_TREE ["ready"]).1 ∧
     (constructNames (googkit_main sampleImpl DEFAULT_TREE ["ready"]).1).length =
       (envIds (googkit_main sampleImpl DEFAULT_TREE ["ready"]).1).length) :=
  ⟨by decide,
   dispatcher_env_per_command sampleImpl DEFAULT_TREE ["ready"]
     ["ApplyConfigCommand", "UpdateDepsCommand"] (by decide)⟩

/-! ### C4: outer fail-fast and the GoogkitError boundary -/

/-- In the Dispatcher loop, the first raising `run()` ends the run: the
constructed and run classes are exactly `pre ++ [c]`, nothing of `post`
happens, no logging happens inside the loop, and the exception is the
loop's outcome. -/
theorem dispatchLoop_fail_fast : ∀ (pre : List ClsSpec) (c : ClsSpec) (post : List ClsSpec)
    (cfg : Bool) (k : Nat) (e : Err),
    (∀ x ∈ pre, x.runResult = none) → c.runResult = some e →
    (dispatchLoop (pre ++ c :: post) cfg k).2 = some e ∧
    constructNames (dispatchLoop (pre ++ c :: post) cfg k).1 =
      pre.map ClsSpec.name ++ [c.name] ∧
    runNames (dispatchLoop (pre ++ c :: post) cfg k).1 =
      pre.map ClsSpec.name ++ [c.name] ∧
    logMsgs (dispatchLoop (pre ++ c :: post) cfg k).1 = []
  | [], c, post, cfg, k, e, _, hc => by
      simp [dispatchLoop, hc, constructNames_iterEvs, runNames_iterEvs, logMsgs_iterEvs]
  | p :: rest, c, post, cfg, k, e, hpre, hc => by
      have hp : p.runResult = none := hpre p (by simp)
      obtain ⟨h1, h2, h3, h4⟩ :=
        dispatchLoop_fail_fast rest c post (cfg || p.needs_config) (k + 1) e
          (fun x hx => hpre x (by simp [hx])) hc
      simp [dispatchLoop, hp, constructNames_append, runNames_append, logMsgs_append,
        constructNames_iterEvs, runNames_iterEvs, logMsgs_iterEvs, h1, h2, h3, h4]

/-- C4: when the Dispatcher runs a resolved class list that splits as
`pre ++ [c] ++ post` with every `pre` run succeeding and `c`'s `run()`
raising a `GoogkitError`, execution is fail-fast — exactly `pre ++ [c]`
are constructed and run, `post` never is — and the error is caught only at
the Dispatcher boundary: the only logged line is `'[Error] ' + str(e)` at
error severity and the process exits with status 1. -/
theorem dispatcher_fail_fast_googkit (impl : String → ClsSpec) (tree : Entries)
    (commands : List String) (ids : List String) (pre : List ClsSpec) (c : ClsSpec)
    (post : List ClsSpec) (msg : String)
    (hres : command_classes tree commands = some ids)
    (hsplit : ids.map impl = pre ++ c :: post)
    (hpre : ∀ x ∈ pre, x.runResult = none)
    (hc : c.runResult = some (Err.googkit msg)) :
    constructNames (googkit_main impl tree commands).1 =
      pre.map ClsSpec.name ++ [c.name] ∧
    runNames (googkit_main impl tree commands).1 = pre.map ClsSpec.name ++ [c.name] ∧
    logMsgs (googkit_main impl tree commands).1 = ["[Error] " ++ msg] ∧
    (googkit_main impl tree commands).2 = Outcome.exited 1 := by
  have hmain : googkit_main impl tree commands = run_resolved (pre ++ c :: post) := by
    simp [googkit_main, hres, hsplit]
  obtain ⟨h1, h2, h3, h4⟩ :=
    dispatchLoop_fail_fast pre c post false 0 (Err.googkit msg) hpre hc
  have hrr : run_resolved (pre ++ c :: post) =
      ((dispatchLoop (pre ++ c :: post) false 0).1 ++
        [Ev.log ("[Error] " ++ msg)], Outcome.exited 1) := by
    simp [run_resolved, h1, Err.isGoogkit, Err.str]
  rw [hmain, hrr]
  refine ⟨?_, ?_, ?_, rfl⟩
  · simp only [constructNames_append, h2]
    simp [constructNames]
  · simp only [runNames_append, h3]
    simp [runNames]
  · simp only [logMsgs_append, h4]
    simp [logMsgs]

/-- Command-class behaviours for the C4 witness run: `UpdateDepsCommand`
raises a `GoogkitError`, everything else succeeds. -/
def sampleFailImpl : String → ClsSpec := fun n =>
  if n == "UpdateDepsCommand" then ⟨n, false, some (Err.googkit "update failed")⟩
  else ⟨n, true, none⟩

/-- Witness for C4: running `["ready"]` where the second resolved class
raises a `GoogkitError` — the first two classes run, the error is logged
with the `[Error]` prefix, the exit status is 1. -/
theorem dispatcher_fail_fast_googkit_witness :
    (command_classes DEFAULT_TREE ["ready"] =
       some ["ApplyConfigCommand", "UpdateDepsCommand"] ∧
     (["ApplyConfigCommand", "UpdateDepsCommand"] : List String).map sampleFailImpl =
       [(⟨"ApplyConfigCommand", true, none⟩ : ClsSpec)] ++
         (⟨"UpdateDepsCommand", false, some (Err.googkit "update failed")⟩ : ClsSpec) :: []) ∧
    (constructNames (googkit_main sampleFailImpl DEFAULT_TREE ["ready"]).1 =
       [(⟨"ApplyConfigCommand", true, none⟩ : ClsSpec)].map ClsSpec.name ++
         ["UpdateDepsCommand"] ∧
     runNames (googkit_main sampleFailImpl DEFAULT_TREE ["ready"]).1 =
       [(⟨"ApplyConfigCommand", true, none⟩ : ClsSpec)].map ClsSpec.name ++
         ["UpdateDepsCommand"] ∧
     logMsgs (googkit_main sampleFailImpl DEFAULT_TREE ["ready"]).1 =
       ["[Error] " ++ "update failed"] ∧
     (googkit_main sampleFailImpl DEFAULT_TREE ["ready"]).2 = Outcome.exited 1) :=
  ⟨⟨by decide, by decide⟩,
   dispatcher_fail_fast_googkit sampleFailImpl DEFAULT_TREE ["ready"]
     ["ApplyConfigCommand", "UpdateDepsCommand"]
     [⟨"ApplyConfigCommand", true, none⟩]
     ⟨"UpdateDepsCommand", false, some (Err.googkit "update failed")⟩ [] "update failed"
     (by decide) (by decide) (by decide) (by decide)⟩

/-! ### C8: resolution miss prints help and exits cleanly -/

/-- Well-formedness is inherited by every child node. -/
theorem nodeWF_lookup : ∀ (m : Entries) (a : String) (n : Node),
    nodeWF (Node.branch m) = true → lookup m a = some n → nodeWF n = true
  | [], _, _, _, h => by simp [lookup] at h
  | (k, v) :: rest, a, n, hwf, h => by
      simp only [nodeWF, Bool.and_eq_true] at hwf
      obtain ⟨⟨_, hv⟩, hrest⟩ := hwf
      by_cases hka : k = a
      · simp only [lookup, hka, if_true] at h
        rw [← Option.some_inj.mp h]; exact hv
      · simp only [lookup, hka, if_false] at h
        exact nodeWF_lookup rest a n hrest h

/-- On a well-formed branch the internal-name filter never raises. -/
theorem filterNonInternal_isSome : ∀ (m : Entries),
    nodeWF (Node.branch m) = true → ∃ l, filterNonInternal (m.map Prod.fst) = some l
  | [], _ => ⟨[], rfl⟩
  | (k, v) :: rest, hwf => by
      simp only [nodeWF, Bool.and_eq_true] at hwf
      obtain ⟨⟨hk, _⟩, hrest⟩ := hwf
      obtain ⟨l, hl⟩ := filterNonInternal_isSome rest hrest
      rcases hd : k.data with _ | ⟨ch, chs⟩
      · rw [hd] at hk; simp at hk
      · refine ⟨if ch = '_' then l else k :: l, ?_⟩
        simp [filterNonInternal, is_internal_command, hd, hl]

/-- On a well-formed tree, `available_commands` never raises when applied
to the prefix resolved by `right_commands`. -/
theorem available_right_isSome : ∀ (args : List String) (m : Entries),
    nodeWF (Node.branch m) = true →
    ∃ l, available_commands m (right_commands m args) = some l
  | [], m, hwf => by
      obtain ⟨l, hl⟩ := filterNonInternal_isSome m hwf
      exact ⟨pySorted l, by simp [right_commands, available_commands, acGo, hl]⟩
  | a :: p, m, hwf => by
      cases hl : lookup m a with
      | none =>
          obtain ⟨l, hfl⟩ := filterNonInternal_isSome m hwf
          exact ⟨pySorted l, by simp [right_commands, hl, available_commands, acGo, hfl]⟩
      | some n =>
        cases n with
        | leaf cmds =>
            exact ⟨[], by simp [right_commands, hl, available_commands, acGo]⟩
        | branch m2 =>
            have hwf2 := nodeWF_lookup m a _ hwf hl
            obtain ⟨l, h2⟩ := available_right_isSome p m2 hwf2
            refine ⟨l, ?_⟩
            simp only [right_commands, hl, available_commands, acGo]
            simpa [available_commands] using h2

/-- The resolved prefix `right_commands` is always a prefix of its input tokens. -/
theorem right_commands_take_eq : ∀ (args : List String) (m : Entries),
    right_commands m args = args.take (right_commands m args).length
  | [], _ => rfl
  | a :: p, m => by
      cases hl : lookup m a with
      | none => simp [right_commands, hl]
      | some n =>
        cases n with
        | leaf cmds => simp [right_commands, hl]
        | branch m2 =>
            have ih := right_commands_take_eq p m2
            simp only [right_commands, hl, List.length_cons, List.take_succ_cons]
            exact congrArg (a :: ·) ih

/-- A trace of printed lines logs nothing. -/
theorem logMsgs_map_print : ∀ (ls : List String), logMsgs (ls.map Ev.print) = []
  | [] => rfl
  | a :: l => by
      have ih := logMsgs_map_print l
      simp only [logMsgs, List.map_cons, List.filterMap_cons] at ih ⊢
      exact ih

/-- C8: on every token sequence whose resolution reports NOT_FOUND (on a
well-formed tree), `main` prints the help rooted at the longest
successfully resolved prefix — `right_commands`, always a prefix of the
input tokens, whose available next-level names fill the listing — and
terminates cleanly via `sys.exit()` with status 0; nothing is logged as an
error. -/
theorem resolution_miss_prints_help (impl : String → ClsSpec) (tree : Entries)
    (commands : List String) (hwf : nodeWF (Node.branch tree) = true)
    (hres : command_classes tree commands = none) :
    (print_help tree commands).map
        (fun lines => (lines.map Ev.print, Outcome.exited 0)) =
      some (googkit_main impl tree commands) ∧
    right_commands tree commands = commands.take (right_commands tree commands).length ∧
    logMsgs (googkit_main impl tree commands).1 = [] := by
  obtain ⟨avail, ha⟩ := available_right_isSome commands tree hwf
  have hph : print_help tree commands =
      some (usage_line (right_commands tree commands) :: "" :: "Available commands:" ::
        avail.map (fun s => "    " ++ s)) := by
    simp [print_help, ha]
  have hmain : googkit_main impl tree commands =
      ((usage_line (right_commands tree commands) :: "" :: "Available commands:" ::
         avail.map (fun s => "    " ++ s)).map Ev.print, Outcome.exited 0) := by
    simp [googkit_main, hres, hph]
  refine ⟨?_, right_commands_take_eq commands tree, ?_⟩
  · rw [hph, hmain]
    rfl
  · rw [hmain]
    exact logMsgs_map_print _

/-- Witness for C8: `["bogus"]` does not resolve on the default tree;
help is printed (usage line, blank, header, the six sorted non-internal
top-level names) and the run exits with status 0. -/
theorem resolution_miss_prints_help_witness :
    (nodeWF (Node.branch DEFAULT_TREE) = true ∧
     command_classes DEFAULT_TREE ["bogus"] = none) ∧
    ((print_help DEFAULT_TREE ["bogus"]).map
        (fun lines => (lines.map Ev.print, Outcome.exited 0)) =
      some (googkit_main sampleImpl DEFAULT_TREE ["bogus"]) ∧
     right_commands DEFAULT_TREE ["bogus"] =
       (["bogus"] : List String).take (right_commands DEFAULT_TREE ["bogus"]).length ∧
     logMsgs (googkit_main sampleImpl DEFAULT_TREE ["bogus"]).1 = []) :=
  ⟨⟨by simp [nodeWF, DEFAULT_TREE], by decide⟩,
   resolution_miss_prints_help sampleImpl DEFAULT_TREE ["bogus"]
     (by simp [nodeWF, DEFAULT_TREE]) (by decide)⟩

end Googkit
